import Mathlib

/-!
Verification of the validated-API-client core of the
`playwright-api-clients-and-zod` repository: JSON values, Zod object
schemas (`src/api/schemas/*.schema.ts`, `src/schemas/*.schema.ts`), the
transport adapter (`src/api/fetch-helper.ts`), the base client
(`src/api/base-client.ts`), the Chirpy domain client
(`src/api/chirpy-client.ts`) and the test fixture
(`src/fixtures/chirpy-api.fixture.ts`), shallowly embedded in Lean.
-/

set_option autoImplicit false

/-- A JSON value, the shape of every body that crosses the network
boundary.  Numbers are modelled as integers (no fractional numbers occur
anywhere in this repository's payloads). -/
inductive JValue where
  | str (s : String)
  | num (n : Int)
  | bool (b : Bool)
  | null
  | arr (elems : List JValue)
  | obj (fields : List (String × JValue))

/-- The primitive kinds that appear in this repository's Zod schemas:
`schema.string()` and `schema.boolean()`. -/
inductive FieldKind where
  | str
  | boolean
deriving DecidableEq

/-- One entry of a Zod validation error: the path to the offending field
and a human-readable reason. -/
structure Issue where
  path : List String
  message : String
deriving DecidableEq

/-- Name of a declared kind, as it appears in Zod error messages. -/
def FieldKind.kindName : FieldKind → String
  | .str => "string"
  | .boolean => "boolean"

/-- The kind Zod reports as "received" for a given JSON value. -/
def JValue.kindName : JValue → String
  | .str _ => "string"
  | .num _ => "number"
  | .bool _ => "boolean"
  | .null => "null"
  | .arr _ => "array"
  | .obj _ => "object"

/-- Does a JSON value conform to a declared primitive kind? -/
def kindMatches : FieldKind → JValue → Bool
  | .str, .str _ => true
  | .boolean, .bool _ => true
  | _, _ => false

/-- Check one declared field of an object shape against the actual
fields, producing the issue Zod would record: an `invalid_type` issue for
a missing field (received undefined) or for a field of the wrong kind. -/
def checkField (fields : List (String × JValue)) (name : String)
    (kind : FieldKind) : Option Issue :=
  match List.lookup name fields with
  | none => some ⟨[name], "Invalid input: expected " ++ kind.kindName
      ++ ", received undefined"⟩
  | some v =>
      if kindMatches kind v then none
      else some ⟨[name], "Invalid input: expected " ++ kind.kindName
          ++ ", received " ++ v.kindName⟩

/-- The issues Zod accumulates while walking the declared shape of an
object schema over the actual fields: one pass over the shape, keeping
every per-field issue (Zod object parsing does not short-circuit). -/
def collectIssues : List (String × FieldKind) → List (String × JValue) →
    List Issue
  | [], _ => []
  | (name, kind) :: rest, fields =>
      match checkField fields name kind with
      | some i => i :: collectIssues rest fields
      | none => collectIssues rest fields

/-- The output object Zod builds while walking the declared shape: only
declared keys are copied over (default "strip" behaviour for unknown
keys), in shape order. -/
def collectParsed : List (String × FieldKind) → List (String × JValue) →
    List (String × JValue)
  | [], _ => []
  | (name, kind) :: rest, fields =>
      match List.lookup name fields with
      | some v =>
          if kindMatches kind v then (name, v) :: collectParsed rest fields
          else collectParsed rest fields
      | none => collectParsed rest fields

/-- A Zod object schema: a declared shape mapping field names to
primitive kinds, as built by `schema.object({...})`. -/
structure ObjectSchema where
  shape : List (String × FieldKind)

/-- Operation `schema.parse(value)`: succeed with the stripped, validated object,
or fail with the full list of issues; a non-object input fails with a
single top-level `invalid_type` issue. -/
def ObjectSchema.parse (s : ObjectSchema) (j : JValue) :
    Except (List Issue) (List (String × JValue)) :=
  match j with
  | .obj fields =>
      let issues := collectIssues s.shape fields
      if issues.isEmpty then .ok (collectParsed s.shape fields)
      else .error issues
  | other => .error [⟨[], "Invalid input: expected object, received "
      ++ other.kindName⟩]

/-- Schema `ChirpyLoginSchema` from `src/api/schemas/chirpy-auth.schema.ts`. -/
def ChirpyLoginSchema : ObjectSchema :=
  ⟨[("email", .str), ("password", .str)]⟩

/-- Schema `ChirpyLoginResponseSchema` from
`src/api/schemas/chirpy-auth.schema.ts`. -/
def ChirpyLoginResponseSchema : ObjectSchema :=
  ⟨[("created_at", .str), ("email", .str), ("id", .str),
    ("is_chirpy_red", .boolean), ("refresh_token", .str),
    ("token", .str), ("updated_at", .str)]⟩

/-- Schema `ChirpResponseSchema` from `src/api/schemas/chirpy-chirps.schema.ts`. -/
def ChirpResponseSchema : ObjectSchema :=
  ⟨[("author_name", .str), ("body", .str), ("created_at", .str),
    ("expiration_datetime", .str), ("id", .str), ("updated_at", .str),
    ("user_id", .str)]⟩

/-- Schema `ChirpDataCreateSchema` from
`src/api/schemas/chirpy-chirps.schema.ts`. -/
def ChirpDataCreateSchema : ObjectSchema :=
  ⟨[("body", .str), ("expiration_datetime", .str)]⟩

/-- Schema `ChirpyErrorSchema` from `src/api/schemas/chirpy-error.schema.ts`,
the current error schema: only `error: string` (the extra field is
commented out there). -/
def ChirpyErrorSchema : ObjectSchema :=
  ⟨[("error", .str)]⟩

/-- Schema `ChirpyErrorSchema` from `src/schemas/chirpy-error.schema.ts`, the
older variant that additionally requires `someExpectedField: string`. -/
def ChirpyErrorSchemaOld : ObjectSchema :=
  ⟨[("error", .str), ("someExpectedField", .str)]⟩

/-- The 401 body the Chirpy server returns for invalid credentials, as
asserted in `tests/api-tests/chirpy-login.spec.ts`. -/
def invalidCredentialsBody : JValue :=
  .obj [("error", .str "Incorrect email or password")]

/-- JS string escaping as performed by `JSON.stringify` for the
characters that matter here. -/
def jsonEscapeChar (c : Char) : String :=
  if c = '\\' then "\\\\"
  else if c = '"' then "\\\""
  else if c = '\n' then "\\n"
  else String.singleton c

/-- Escape a string for inclusion in a JSON document. -/
def jsonEscape (s : String) : String :=
  String.join (s.toList.map jsonEscapeChar)

mutual

/-- Serialization `JSON.stringify` on a JSON value. -/
def jsonStringify : JValue → String
  | .str s => "\"" ++ jsonEscape s ++ "\""
  | .num n => toString n
  | .bool b => if b then "true" else "false"
  | .null => "null"
  | .arr elems => "[" ++ jsonStringifyElems elems ++ "]"
  | .obj fields => "\x7b" ++ jsonStringifyFields fields ++ "\x7d"

/-- Comma-separated serialization of JSON array elements. -/
def jsonStringifyElems : List JValue → String
  | [] => ""
  | [x] => jsonStringify x
  | x :: rest => jsonStringify x ++ "," ++ jsonStringifyElems rest

/-- Comma-separated serialization of JSON object members. -/
def jsonStringifyFields : List (String × JValue) → String
  | [] => ""
  | [(k, v)] => "\"" ++ jsonEscape k ++ "\":" ++ jsonStringify v
  | (k, v) :: rest =>
      "\"" ++ jsonEscape k ++ "\":" ++ jsonStringify v ++ ","
        ++ jsonStringifyFields rest

end

/-- HTTP methods supported by the fetch helper (`RequestMethod` in
`src/api/fetch-helper.ts`). -/
inductive RequestMethod where
  | GET
  | POST
  | PUT
  | DELETE
deriving DecidableEq

/-- A defined query-parameter value: `string | number | boolean` (the
`undefined` case is modelled by `Option` at the use site). -/
inductive ParamValue where
  | str (s : String)
  | num (n : Int)
  | bool (b : Bool)
deriving DecidableEq

/-- JS `String(value)` conversion on a defined parameter value. -/
def paramToString : ParamValue → String
  | .str s => s
  | .num n => toString n
  | .bool b => if b then "true" else "false"

/-- A URL, modelled as its pre-query part plus its query-string entries
(what `new URL` exposes as `searchParams`). -/
structure Url where
  path : String
  query : List (String × String)
deriving DecidableEq

/-- Type `FetchConfig`: the client-owned base URL and mutable header
map. -/
structure FetchConfig where
  baseURL : String
  headers : List (String × String)
deriving DecidableEq

/-- Type `FetchOptions` (and `RequestParams`): per-call request options;
every field is optional in the source. -/
structure FetchOptions where
  method : Option RequestMethod := none
  headers : Option (List (String × String)) := none
  data : Option JValue := none
  multipart : Option JValue := none
  params : Option (List (String × Option ParamValue)) := none

/-- Type `FetchResponse`: the uniform response record returned by the
transport adapter. -/
structure FetchResponse where
  status : Nat
  statusText : String
  data : JValue
  headers : List (String × String)

/-- The request actually handed to Playwright's `request.fetch`: final
URL (with appended query entries), method, headers, serialized JSON body
and multipart payload. -/
structure SentRequest where
  method : RequestMethod
  url : Url
  headers : List (String × String)
  body : Option String
  multipart : Option JValue

/-- A model of a Playwright `APIResponse`: status, status text, parsed
JSON body, response headers. -/
structure ApiResponse where
  status : Nat
  statusText : String
  data : JValue
  headers : List (String × String)

/-- The ambient request-issuing capability (Playwright's
`APIRequestContext`): maps a request to the obtained response, or to
nothing when no response is obtained at all. -/
def Transport : Type := SentRequest → Option ApiResponse

/-- The query entries appended by the params loop of `fetchWithConfig`
(`fetch-helper.ts` lines 42-46): entries whose value is `undefined` are
skipped, all others are appended after `String(...)` conversion. -/
def serializeParams :
    List (String × Option ParamValue) → List (String × String)
  | [] => []
  | (k, some v) :: rest => (k, paramToString v) :: serializeParams rest
  | (_, none) :: rest => serializeParams rest

/-- URL building of `fetchWithConfig`: append the defined query entries
to the URL's query string when `params` is provided. -/
def appendParams (url : Url)
    (params : Option (List (String × Option ParamValue))) : Url :=
  match params with
  | none => url
  | some ps => { url with query := url.query ++ serializeParams ps }

/-- The single request `fetchWithConfig` issues (`fetch-helper.ts`
lines 38-59): URL with appended query entries, method defaulting to GET,
headers defaulting to empty, body JSON-serialized exactly when `data` is
present. -/
def buildRequest (url : Url) (o : FetchOptions) : SentRequest :=
  { method := o.method.getD .GET
    url := appendParams url o.params
    headers := o.headers.getD []
    body := o.data.map jsonStringify
    multipart := o.multipart }

/-- Result of one `fetchWithConfig` call: the returned record or raised
error, together with the trace of requests issued to the transport. -/
structure FetchOutcome where
  result : Except String FetchResponse
  sent : List SentRequest

/-- Function `fetchWithConfig` (`src/api/fetch-helper.ts`): build the
URL and body, issue exactly one call through the ambient transport,
raise `Error("No response received")` when no response was obtained, and
otherwise return the uniform response record whatever the status code. -/
def fetchWithConfig (t : Transport) (url : Url) (o : FetchOptions) :
    FetchOutcome :=
  let req := buildRequest url o
  match t req with
  | none => ⟨.error "No response received", [req]⟩
  | some r => ⟨.ok ⟨r.status, r.statusText, r.data, r.headers⟩, [req]⟩

/-- JS object property assignment on a header map: update the value in
place when the key exists, otherwise append a new entry. -/
def setHeader : List (String × String) → String → String →
    List (String × String)
  | [], k, v => [(k, v)]
  | (k', v') :: rest, k, v =>
      if k' = k then (k, v) :: rest else (k', v') :: setHeader rest k v

/-- The object spread `{...base, ...extra}` used by `makeRequest` to
merge the client-level headers with the per-call headers: every entry of
`extra` assigned onto `base` in order, so per-call entries win on key
collision. -/
def mergeHeaders : List (String × String) → List (String × String) →
    List (String × String)
  | base, [] => base
  | base, (k, v) :: rest => mergeHeaders (setHeader base k v) rest

/-- Resolution `new URL(endpoint, baseURL).toString()` for the URL
shapes occurring in this repository (an origin-only base URL and an
absolute-path endpoint): their concatenation, with no query string. -/
def resolveURL (base endpoint : String) : Url :=
  ⟨base ++ endpoint, []⟩

/-- The options `makeRequest` forwards to `fetchWithConfig`: the
per-call options with the headers replaced by the merged map
(`base-client.ts`, `makeRequest`). -/
def withMergedHeaders (cfg : FetchConfig) (o : FetchOptions) :
    FetchOptions :=
  { o with headers := some (mergeHeaders cfg.headers (o.headers.getD [])) }

/-- Method `BaseApiClient.makeRequest`: resolve the endpoint against the
owned base URL, merge headers, delegate to `fetchWithConfig`. -/
def makeRequest (cfg : FetchConfig) (t : Transport) (endpoint : String)
    (o : FetchOptions) : FetchOutcome :=
  fetchWithConfig t (resolveURL cfg.baseURL endpoint)
    (withMergedHeaders cfg o)

/-- The one request `makeRequest cfg t endpoint o` hands to the
transport. -/
def makeRequestBuilt (cfg : FetchConfig) (endpoint : String)
    (o : FetchOptions) : SentRequest :=
  buildRequest (resolveURL cfg.baseURL endpoint) (withMergedHeaders cfg o)

/-- The failure taxonomy of a validated domain-client operation: a
propagated transport error, a failed `expect(status).toBe(...)`
assertion, or a thrown Zod validation error. -/
inductive ClientError where
  | transportFailure (message : String)
  | statusMismatch (expected actual : Nat)
  | schemaFailure (issues : List Issue)
deriving DecidableEq

/-- Type `ChirpyLogin`: the login request payload. -/
structure ChirpyLogin where
  email : String
  password : String
deriving DecidableEq

/-- Type `ChirpDataCreate`: the chirp creation payload. -/
structure ChirpDataCreate where
  body : String
  expiration_datetime : String
deriving DecidableEq

/-- The JSON body a login request carries. -/
def ChirpyLogin.toJson (c : ChirpyLogin) : JValue :=
  .obj [("email", .str c.email), ("password", .str c.password)]

/-- The JSON body a chirp-creation request carries. -/
def ChirpDataCreate.toJson (c : ChirpDataCreate) : JValue :=
  .obj [("body", .str c.body),
        ("expiration_datetime", .str c.expiration_datetime)]

/-- Field `loginPath` of `ChirpyApiClient`. -/
def ChirpyApiClient.loginPath : String := "/api/login"

/-- Field `chirpsPath` of `ChirpyApiClient`. -/
def ChirpyApiClient.chirpsPath : String := "/api/chirps"

/-- Property access `obj.name` on a parsed object whose schema declares
`name` as a string field. -/
def getStr (fields : List (String × JValue)) (name : String) : String :=
  match List.lookup name fields with
  | some (.str s) => s
  | _ => ""

/-- The options `login` passes to `makeRequest`. -/
def ChirpyApiClient.loginOptions (creds : ChirpyLogin) : FetchOptions :=
  { method := some .POST, data := some creds.toJson }

/-- The request `login` sends through the transport. -/
def ChirpyApiClient.loginRequest (cfg : FetchConfig)
    (creds : ChirpyLogin) : SentRequest :=
  makeRequestBuilt cfg ChirpyApiClient.loginPath
    (ChirpyApiClient.loginOptions creds)

/-- Method `ChirpyApiClient.login`: POST `/api/login`, assert status
200, then validate the body against `ChirpyLoginResponseSchema`. -/
def ChirpyApiClient.login (cfg : FetchConfig) (t : Transport)
    (creds : ChirpyLogin) : Except ClientError (List (String × JValue)) :=
  match (makeRequest cfg t ChirpyApiClient.loginPath
      (ChirpyApiClient.loginOptions creds)).result with
  | .error e => .error (.transportFailure e)
  | .ok resp =>
      if resp.status = 200 then
        match ChirpyLoginResponseSchema.parse resp.data with
        | .error issues => .error (.schemaFailure issues)
        | .ok data => .ok data
      else .error (.statusMismatch 200 resp.status)

/-- Method `ChirpyApiClient.authenticate`: run `login`; on success set
the `Authorization` header on the client's own config to
`Bearer <token>`. The returned pair is the client config after the call
together with the propagated error, if any. -/
def ChirpyApiClient.authenticate (cfg : FetchConfig) (t : Transport)
    (creds : ChirpyLogin) : FetchConfig × Option ClientError :=
  match ChirpyApiClient.login cfg t creds with
  | .error e => (cfg, some e)
  | .ok data =>
      let bearer := "Bearer " ++ getStr data "token"
      ({ cfg with headers := setHeader cfg.headers "Authorization" bearer },
        none)

/-- The options `createChirp` passes to `makeRequest`. -/
def ChirpyApiClient.createChirpOptions (chirp : ChirpDataCreate) :
    FetchOptions :=
  { method := some .POST, data := some chirp.toJson }

/-- The request `createChirp` sends through the transport. -/
def ChirpyApiClient.createChirpRequest (cfg : FetchConfig)
    (chirp : ChirpDataCreate) : SentRequest :=
  makeRequestBuilt cfg ChirpyApiClient.chirpsPath
    (ChirpyApiClient.createChirpOptions chirp)

/-- Method `ChirpyApiClient.createChirp`: POST `/api/chirps`, assert
status 201, then validate the body against `ChirpResponseSchema`. -/
def ChirpyApiClient.createChirp (cfg : FetchConfig) (t : Transport)
    (chirp : ChirpDataCreate) :
    Except ClientError (List (String × JValue)) :=
  match (makeRequest cfg t ChirpyApiClient.chirpsPath
      (ChirpyApiClient.createChirpOptions chirp)).result with
  | .error e => .error (.transportFailure e)
  | .ok resp =>
      if resp.status = 201 then
        match ChirpResponseSchema.parse resp.data with
        | .error issues => .error (.schemaFailure issues)
        | .ok data => .ok data
      else .error (.statusMismatch 201 resp.status)

/-- The options `getChirp` passes to `makeRequest`. -/
def ChirpyApiClient.getChirpOptions : FetchOptions :=
  { method := some .GET }

/-- The request `getChirp` sends through the transport. -/
def ChirpyApiClient.getChirpRequest (cfg : FetchConfig)
    (chirpId : String) : SentRequest :=
  makeRequestBuilt cfg (ChirpyApiClient.chirpsPath ++ "/" ++ chirpId)
    ChirpyApiClient.getChirpOptions

/-- Method `ChirpyApiClient.getChirp`: GET `/api/chirps/{id}`, assert
status 200, then validate the body against `ChirpResponseSchema`. -/
def ChirpyApiClient.getChirp (cfg : FetchConfig) (t : Transport)
    (chirpId : String) : Except ClientError (List (String × JValue)) :=
  match (makeRequest cfg t (ChirpyApiClient.chirpsPath ++ "/" ++ chirpId)
      ChirpyApiClient.getChirpOptions).result with
  | .error e => .error (.transportFailure e)
  | .ok resp =>
      if resp.status = 200 then
        match ChirpResponseSchema.parse resp.data with
        | .error issues => .error (.schemaFailure issues)
        | .ok data => .ok data
      else .error (.statusMismatch 200 resp.status)

/-- Method `ChirpyApiClient.rawRequest`: `makeRequest` with no status
assertion and no validation. -/
def ChirpyApiClient.rawRequest (cfg : FetchConfig) (t : Transport)
    (path : String) (o : FetchOptions) : FetchOutcome :=
  makeRequest cfg t path o

/-- Factory `createChirpyApiClient`: build the client config from the
environment-supplied base URL and optional initial headers. -/
def createChirpyApiClient (baseUrl : String)
    (headers : Option (List (String × String))) : FetchConfig :=
  ⟨baseUrl, headers.getD []⟩

/-- The observable steps of the `chirpyApi` fixture in
`src/fixtures/chirpy-api.fixture.ts`. -/
inductive FixtureEvent where
  | acquireTransport
  | constructClient
  | authenticateClient
  | runTestBody
  | releaseTransport
deriving DecidableEq

/-- Trace of one run of the `chirpyApi` fixture: acquire a new request
context, construct the client, run `authenticate`, and hand the client
to the test body via `use` when authentication succeeded; the fixture
body contains no disposal of the request context, so no release event
ever occurs. -/
def chirpyApiFixtureTrace (baseUrl : String) (t : Transport)
    (creds : ChirpyLogin) : List FixtureEvent :=
  [.acquireTransport, .constructClient, .authenticateClient] ++
    match (ChirpyApiClient.authenticate (createChirpyApiClient baseUrl none)
        t creds).2 with
    | some _ => []
    | none => [.runTestBody]

/-- A declared field is violated by an object's actual fields when it is
missing or of the wrong kind (stated independently of the parser). -/
def fieldViolation (fields : List (String × JValue)) (name : String)
    (kind : FieldKind) : Bool :=
  match List.lookup name fields with
  | none => true
  | some v => !kindMatches kind v

/-- An example client configuration with one pre-existing header. -/
def cfgEx : FetchConfig :=
  ⟨"https://chirpy.example", [("Accept", "application/json")]⟩

/-- An example client configuration with two pre-existing headers. -/
def cfgHdrEx : FetchConfig :=
  ⟨"https://chirpy.example",
   [("Accept", "application/json"), ("X-Api", "7")]⟩

/-- Example login credentials. -/
def credsEx : ChirpyLogin := ⟨"user@test.com", "secret"⟩

/-- An example chirp-creation payload. -/
def chirpEx : ChirpDataCreate := ⟨"Hello, world!", "2026-01-01T00:00:00Z"⟩

/-- A transport on which no response is ever obtained. -/
def transportNone : Transport := fun _ => none

/-- A 401 response carrying the invalid-credentials error body. -/
def apiResponse401 : ApiResponse :=
  ⟨401, "Unauthorized", invalidCredentialsBody, []⟩

/-- A transport that answers every request with the 401 response. -/
def transport401 : Transport := fun _ => some apiResponse401

/-- A well-formed login response body with token `tok123`. -/
def loginBodyEx : JValue :=
  .obj [("created_at", .str "2026-01-01"), ("email", .str "user@test.com"),
        ("id", .str "u1"), ("is_chirpy_red", .bool false),
        ("refresh_token", .str "r1"), ("token", .str "tok123"),
        ("updated_at", .str "2026-01-01")]

/-- A transport that answers every request with a successful login
response. -/
def transportLoginOk : Transport :=
  fun _ => some ⟨200, "OK", loginBodyEx,
    [("content-type", "application/json")]⟩

/-- The config expected after a successful `authenticate` on `cfgEx`
through `transportLoginOk`. -/
def cfgAuthEx : FetchConfig :=
  ⟨"https://chirpy.example",
   [("Accept", "application/json"), ("Authorization", "Bearer tok123")]⟩

/-- An example resolved URL. -/
def urlEx : Url := ⟨"https://chirpy.example/api/chirps", []⟩

/-- Example options with no params and no data. -/
def optsEx : FetchOptions := { method := some .GET }

/-- Example options carrying per-call headers. -/
def headersOptsEx : FetchOptions :=
  { method := some .GET,
    headers := some [("X-Trace", "1"), ("Accept", "text/plain")] }

/-- Example options carrying query params (one undefined, one false, one
zero) and a JSON body. -/
def paramsOptsEx : FetchOptions :=
  { method := some .GET,
    data := some (.obj [("body", .str "hi")]),
    params := some [("q", some (.str "x")), ("skip", none),
                    ("flag", some (.bool false)), ("page", some (.num 0))] }

/-- An object deviating from the login-response schema at several
fields: `email` has the wrong kind and all other declared fields are
missing. -/
def badLoginBody : List (String × JValue) := [("email", .num 5)]

/-- An object matching the error schema and carrying one undeclared
extra field. -/
def errorBodyWithExtra : List (String × JValue) :=
  [("error", .str "boom"), ("extra", .num 7)]

theorem lookup_eq_none_of_not_mem_keys {β : Type} (k : String)
    (l : List (String × β)) (h : k ∉ l.map Prod.fst) :
    List.lookup k l = none := by
  induction l with
  | nil => rfl
  | cons kv rest ih =>
      obtain ⟨k', b⟩ := kv
      simp only [List.map_cons, List.mem_cons] at h
      push_neg at h
      have hne : (k == k') = false := by simp [h.1]
      simp [List.lookup, hne, ih h.2]

theorem lookup_setHeader_self (hs : List (String × String)) (k v : String) :
    List.lookup k (setHeader hs k v) = some v := by
  induction hs with
  | nil => simp [setHeader, List.lookup]
  | cons kv rest ih =>
      obtain ⟨k', v'⟩ := kv
      by_cases h : k' = k
      · subst h
        simp [setHeader, List.lookup]
      · have hkk : ¬ k = k' := fun hh => h hh.symm
        have hne : (k == k') = false := by simp [hkk]
        simp [setHeader, h, List.lookup, hne, ih]

theorem lookup_setHeader_other (hs : List (String × String))
    (k v k' : String) (h : k' ≠ k) :
    List.lookup k' (setHeader hs k v) = List.lookup k' hs := by
  have hne : (k' == k) = false := by simp [h]
  induction hs with
  | nil => simp [setHeader, List.lookup, hne]
  | cons kv rest ih =>
      obtain ⟨k0, v0⟩ := kv
      by_cases h0 : k0 = k
      · subst h0
        simp [setHeader, List.lookup, hne]
      · simp [setHeader, h0, List.lookup, ih]

theorem lookup_mergeHeaders_of_not_mem (extra : List (String × String)) :
    ∀ (base : List (String × String)) (k : String),
      List.lookup k extra = none →
      List.lookup k (mergeHeaders base extra) = List.lookup k base := by
  induction extra with
  | nil => intro base k _; rfl
  | cons kv rest ih =>
      intro base k h
      obtain ⟨k1, v1⟩ := kv
      by_cases hk : k = k1
      · subst hk
        simp [List.lookup] at h
      · have hne : (k == k1) = false := by simp [hk]
        simp only [List.lookup, hne] at h
        rw [mergeHeaders, ih (setHeader base k1 v1) k h,
          lookup_setHeader_other base k1 v1 k hk]

theorem lookup_mergeHeaders_of_mem (extra : List (String × String)) :
    ∀ (base : List (String × String)) (k v : String),
      (extra.map Prod.fst).Nodup →
      List.lookup k extra = some v →
      List.lookup k (mergeHeaders base extra) = some v := by
  induction extra with
  | nil => intro base k v _ h; simp [List.lookup] at h
  | cons kv rest ih =>
      intro base k v hnd h
      obtain ⟨k1, v1⟩ := kv
      simp only [List.map_cons, List.nodup_cons] at hnd
      by_cases hk : k = k1
      · subst hk
        have hv : v = v1 := by
          simp [List.lookup] at h
          exact h.symm
        subst hv
        have hrest : List.lookup k rest = none :=
          lookup_eq_none_of_not_mem_keys k rest hnd.1
        rw [mergeHeaders, lookup_mergeHeaders_of_not_mem rest _ k hrest,
          lookup_setHeader_self]
      · have hne : (k == k1) = false := by simp [hk]
        simp only [List.lookup, hne] at h
        rw [mergeHeaders]
        exact ih (setHeader base k1 v1) k v hnd.2 h

theorem makeRequest_sent (cfg : FetchConfig) (t : Transport)
    (endpoint : String) (o : FetchOptions) :
    (makeRequest cfg t endpoint o).sent = [makeRequestBuilt cfg endpoint o] := by
  simp only [makeRequest, fetchWithConfig, makeRequestBuilt]
  cases t (buildRequest (resolveURL cfg.baseURL endpoint)
    (withMergedHeaders cfg o)) <;> rfl

theorem makeRequest_result_none (cfg : FetchConfig) (t : Transport)
    (endpoint : String) (o : FetchOptions)
    (h : t (makeRequestBuilt cfg endpoint o) = none) :
    (makeRequest cfg t endpoint o).result = .error "No response received" := by
  simp only [makeRequestBuilt] at h
  simp only [makeRequest, fetchWithConfig, h]

theorem makeRequest_result_some (cfg : FetchConfig) (t : Transport)
    (endpoint : String) (o : FetchOptions) (raw : ApiResponse)
    (h : t (makeRequestBuilt cfg endpoint o) = some raw) :
    (makeRequest cfg t endpoint o).result =
      .ok ⟨raw.status, raw.statusText, raw.data, raw.headers⟩ := by
  simp only [makeRequestBuilt] at h
  simp only [makeRequest, fetchWithConfig, h]

theorem checkField_eq_none_iff (fields : List (String × JValue))
    (name : String) (kind : FieldKind) :
    checkField fields name kind = none ↔
      fieldViolation fields name kind = false := by
  cases hl : List.lookup name fields with
  | none => simp [checkField, fieldViolation, hl]
  | some v =>
      by_cases h : kindMatches kind v <;>
        simp [checkField, fieldViolation, hl, h]

theorem checkField_path (fields : List (String × JValue)) (name : String)
    (kind : FieldKind) (i : Issue)
    (h : checkField fields name kind = some i) : i.path = [name] := by
  cases hl : List.lookup name fields with
  | none =>
      simp only [checkField, hl, Option.some.injEq] at h
      subst h
      rfl
  | some v =>
      by_cases hm : kindMatches kind v
      · simp [checkField, hl, hm] at h
      · simp only [checkField, hl] at h
        rw [if_neg hm] at h
        injection h with h
        subst h
        rfl

theorem fieldViolation_false_iff (fields : List (String × JValue))
    (name : String) (kind : FieldKind) :
    fieldViolation fields name kind = false ↔
      ∃ v, List.lookup name fields = some v ∧ kindMatches kind v = true := by
  cases hl : List.lookup name fields with
  | none => simp [fieldViolation, hl]
  | some v =>
      by_cases h : kindMatches kind v <;> simp [fieldViolation, hl, h]

theorem exists_issue_of_violation (spec : List (String × FieldKind)) :
    ∀ (fields : List (String × JValue)) (name : String) (kind : FieldKind),
      (name, kind) ∈ spec → fieldViolation fields name kind = true →
      ∃ i ∈ collectIssues spec fields, i.path = [name] := by
  induction spec with
  | nil => intro fields name kind hmem; simp at hmem
  | cons nk rest ih =>
      intro fields name kind hmem hviol
      obtain ⟨n, k⟩ := nk
      rcases List.mem_cons.mp hmem with heq | hrest
      · obtain ⟨hn, hk⟩ := Prod.mk.injEq .. ▸ heq
        subst hn; subst hk
        cases hc : checkField fields name kind with
        | none =>
            rw [(checkField_eq_none_iff fields name kind).mp hc] at hviol
            simp at hviol
        | some i =>
            refine ⟨i, ?_, checkField_path fields name kind i hc⟩
            simp [collectIssues, hc]
      · obtain ⟨i, hi, hp⟩ := ih fields name kind hrest hviol
        cases hc : checkField fields n k with
        | none =>
            refine ⟨i, ?_, hp⟩
            simp [collectIssues, hc, hi]
        | some j =>
            refine ⟨i, ?_, hp⟩
            simp [collectIssues, hc, hi]

theorem collectIssues_eq_nil_iff (spec : List (String × FieldKind))
    (fields : List (String × JValue)) :
    collectIssues spec fields = [] ↔
      ∀ name kind, (name, kind) ∈ spec →
        fieldViolation fields name kind = false := by
  induction spec with
  | nil => simp [collectIssues]
  | cons nk rest ih =>
      obtain ⟨n, k⟩ := nk
      cases hc : checkField fields n k with
      | none =>
          simp only [collectIssues, hc, ih]
          constructor
          · intro h name kind hmem
            rcases List.mem_cons.mp hmem with heq | hrest
            · obtain ⟨hn, hk⟩ := Prod.mk.injEq .. ▸ heq
              subst hn; subst hk
              exact (checkField_eq_none_iff fields name kind).mp hc
            · exact h name kind hrest
          · intro h name kind hmem
            exact h name kind (List.mem_cons_of_mem _ hmem)
      | some i =>
          simp only [collectIssues, hc]
          constructor
          · intro h; cases h
          · intro h
            have := (checkField_eq_none_iff fields n k).mpr
              (h n k (List.mem_cons_self _ _))
            rw [this] at hc
            cases hc

theorem collectParsed_keys (spec : List (String × FieldKind)) :
    ∀ (fields : List (String × JValue)),
      (∀ name kind, (name, kind) ∈ spec →
        fieldViolation fields name kind = false) →
      (collectParsed spec fields).map Prod.fst = spec.map Prod.fst := by
  induction spec with
  | nil => intro fields _; rfl
  | cons nk rest ih =>
      intro fields h
      obtain ⟨n, k⟩ := nk
      obtain ⟨v, hv, hm⟩ := (fieldViolation_false_iff fields n k).mp
        (h n k (List.mem_cons_self _ _))
      have hrest := ih fields fun name kind hmem =>
        h name kind (List.mem_cons_of_mem _ hmem)
      simp [collectParsed, hv, hm, hrest]

theorem lookup_collectParsed_sub (spec : List (String × FieldKind)) :
    ∀ (fields : List (String × JValue)) (name : String) (v : JValue),
      List.lookup name (collectParsed spec fields) = some v →
      List.lookup name fields = some v := by
  induction spec with
  | nil => intro fields name v h; simp [collectParsed, List.lookup] at h
  | cons nk rest ih =>
      intro fields name v h
      obtain ⟨n, k⟩ := nk
      cases hl : List.lookup n fields with
      | none =>
          simp only [collectParsed, hl] at h
          exact ih fields name v h
      | some w =>
          simp only [collectParsed, hl] at h
          by_cases hm : kindMatches k w
          · rw [if_pos hm] at h
            by_cases hn : name = n
            · subst hn
              have hb : (name == name) = true := by simp
              rw [List.lookup, hb] at h
              rw [hl, ← h]
            · have hb : (name == n) = false := by simp [hn]
              rw [List.lookup, hb] at h
              exact ih fields name v h
          · rw [if_neg hm] at h
            exact ih fields name v h

theorem lookup_collectParsed_of_mem (spec : List (String × FieldKind)) :
    ∀ (fields : List (String × JValue)) (name : String) (kind : FieldKind),
      (name, kind) ∈ spec → fieldViolation fields name kind = false →
      ∃ v, List.lookup name (collectParsed spec fields) = some v := by
  induction spec with
  | nil => intro fields name kind hmem; simp at hmem
  | cons nk rest ih =>
      intro fields name kind hmem hok
      obtain ⟨n, k⟩ := nk
      rcases List.mem_cons.mp hmem with heq | hrest
      · obtain ⟨hn, hk⟩ := Prod.mk.injEq .. ▸ heq
        subst hn; subst hk
        obtain ⟨v, hv, hm⟩ := (fieldViolation_false_iff fields name kind).mp hok
        refine ⟨v, ?_⟩
        simp only [collectParsed, hv]
        rw [if_pos hm, List.lookup]
        simp
      · cases hl : List.lookup n fields with
        | none =>
            simp only [collectParsed, hl]
            exact ih fields name kind hrest hok
        | some w =>
            simp only [collectParsed, hl]
            by_cases hm : kindMatches k w
            · by_cases hn : name = n
              · subst hn
                refine ⟨w, ?_⟩
                rw [if_pos hm, List.lookup]
                simp
              · obtain ⟨v, hv⟩ := ih fields name kind hrest hok
                refine ⟨v, ?_⟩
                rw [if_pos hm, List.lookup]
                have hb : (name == n) = false := by simp [hn]
                rw [hb, hv]
            · rw [if_neg hm]
              exact ih fields name kind hrest hok

/-- C4: on an object input, a schema's `parse` reports every violated
declared field (each missing or wrongly-kinded field contributes an
issue whose path names it, not only the first one encountered), any
violated declared field forces `parse` to fail, and `parse` returns a
value only when no declared field is violated. -/
theorem parse_enumerates_every_violation (s : ObjectSchema)
    (fields : List (String × JValue)) :
    (∀ issues, s.parse (.obj fields) = .error issues →
      ∀ name kind, (name, kind) ∈ s.shape →
        fieldViolation fields name kind = true →
        ∃ i ∈ issues, i.path = [name]) ∧
    (∀ name kind, (name, kind) ∈ s.shape →
      fieldViolation fields name kind = true →
      ∃ issues, s.parse (.obj fields) = .error issues) ∧
    (∀ out, s.parse (.obj fields) = .ok out →
      ∀ name kind, (name, kind) ∈ s.shape →
        fieldViolation fields name kind = false) := by
  refine ⟨?_, ?_, ?_⟩
  · intro issues herr name kind hmem hviol
    by_cases hemp : (collectIssues s.shape fields).isEmpty
    · simp [ObjectSchema.parse, hemp] at herr
    · simp only [ObjectSchema.parse, hemp, Bool.false_eq_true, ↓reduceIte,
        Except.error.injEq] at herr
      subst herr
      exact exists_issue_of_violation s.shape fields name kind hmem hviol
  · intro name kind hmem hviol
    have hne : collectIssues s.shape fields ≠ [] := by
      intro hnil
      have := (collectIssues_eq_nil_iff s.shape fields).mp hnil name kind hmem
      rw [this] at hviol
      cases hviol
    have hemp : (collectIssues s.shape fields).isEmpty = false := by
      cases hcc : collectIssues s.shape fields with
      | nil => exact absurd hcc hne
      | cons a l => rfl
    refine ⟨collectIssues s.shape fields, ?_⟩
    simp [ObjectSchema.parse, hemp]
  · intro out hok name kind hmem
    by_cases hemp : (collectIssues s.shape fields).isEmpty
    · have hnil : collectIssues s.shape fields = [] :=
        List.isEmpty_iff.mp hemp
      exact (collectIssues_eq_nil_iff s.shape fields).mp hnil name kind hmem
    · simp [ObjectSchema.parse, hemp] at hok

/-- Witness for C4 at a concrete two-violation input: `email` of the
wrong kind and `token` missing both appear in the issue list, and parse
fails with the full list. -/
theorem parse_enumerates_every_violation_witness :
    (∃ i ∈ collectIssues ChirpyLoginResponseSchema.shape badLoginBody,
      i.path = ["email"]) ∧
    (∃ i ∈ collectIssues ChirpyLoginResponseSchema.shape badLoginBody,
      i.path = ["token"]) ∧
    ChirpyLoginResponseSchema.parse (.obj badLoginBody) =
      .error (collectIssues ChirpyLoginResponseSchema.shape badLoginBody) :=
  ⟨(parse_enumerates_every_violation ChirpyLoginResponseSchema
      badLoginBody).1 _ rfl "email" .str (by decide) (by decide),
   (parse_enumerates_every_violation ChirpyLoginResponseSchema
      badLoginBody).1 _ rfl "token" .str (by decide) (by decide),
   rfl⟩

/-- C10: when an object carries every declared field at its declared
kind (and possibly undeclared extra fields), `parse` succeeds, the
returned value's keys are exactly the declared keys (extras stripped),
and every returned entry comes verbatim from the input. -/
theorem parse_strips_undeclared_fields (s : ObjectSchema)
    (fields : List (String × JValue))
    (h : ∀ name kind, (name, kind) ∈ s.shape →
      fieldViolation fields name kind = false) :
    ∃ out, s.parse (.obj fields) = .ok out ∧
      out.map Prod.fst = s.shape.map Prod.fst ∧
      ∀ name v, List.lookup name out = some v →
        List.lookup name fields = some v := by
  have hnil : collectIssues s.shape fields = [] :=
    (collectIssues_eq_nil_iff s.shape fields).mpr h
  have hemp : (collectIssues s.shape fields).isEmpty = true := by
    rw [hnil]; rfl
  refine ⟨collectParsed s.shape fields, ?_, ?_, ?_⟩
  · simp [ObjectSchema.parse, hemp]
  · exact collectParsed_keys s.shape fields h
  · exact fun name v hv => lookup_collectParsed_sub s.shape fields name v hv

/-- Witness for C10: the error body with an undeclared extra field
parses against the current error schema to exactly the declared field. -/
theorem parse_strips_undeclared_fields_witness :
    ∃ out, ChirpyErrorSchema.parse (.obj errorBodyWithExtra) = .ok out ∧
      out.map Prod.fst = ChirpyErrorSchema.shape.map Prod.fst ∧
      ∀ name v, List.lookup name out = some v →
        List.lookup name errorBodyWithExtra = some v :=
  parse_strips_undeclared_fields ChirpyErrorSchema errorBodyWithExtra
    (by
      intro name kind hmem
      simp only [ChirpyErrorSchema, List.mem_singleton, Prod.mk.injEq] at hmem
      obtain ⟨h1, h2⟩ := hmem
      subst h1; subst h2
      decide)

/-- C5: the body `{error: "Incorrect email or password"}` parses
successfully against the current error schema (yielding that error
string), and fails against the older variant with a validation error
listing the missing `someExpectedField`. -/
theorem error_schema_variants_on_invalid_credentials_body :
    ChirpyErrorSchema.parse invalidCredentialsBody =
      .ok [("error", .str "Incorrect email or password")] ∧
    ChirpyErrorSchemaOld.parse invalidCredentialsBody =
      .error [⟨["someExpectedField"],
        "Invalid input: expected string, received undefined"⟩] :=
  ⟨rfl, rfl⟩

/-- C3: `makeRequest` delegates to the transport exactly one request
whose header map is the client-level map overridden by the per-call
map: a key absent from the per-call headers keeps its client-level
value, a key present in the per-call headers takes its per-call value,
and with no per-call headers the merged map is exactly the client-level
map. -/
theorem makeRequest_merges_headers (cfg : FetchConfig) (endpoint : String)
    (o : FetchOptions) (k : String) :
    (∀ t, (makeRequest cfg t endpoint o).sent =
      [makeRequestBuilt cfg endpoint o]) ∧
    (makeRequestBuilt cfg endpoint o).headers =
      mergeHeaders cfg.headers (o.headers.getD []) ∧
    (o.headers = none →
      (makeRequestBuilt cfg endpoint o).headers = cfg.headers) ∧
    (List.lookup k (o.headers.getD []) = none →
      List.lookup k (makeRequestBuilt cfg endpoint o).headers =
        List.lookup k cfg.headers) ∧
    (((o.headers.getD []).map Prod.fst).Nodup →
      ∀ v, List.lookup k (o.headers.getD []) = some v →
        List.lookup k (makeRequestBuilt cfg endpoint o).headers = some v) := by
  have hb : (makeRequestBuilt cfg endpoint o).headers =
      mergeHeaders cfg.headers (o.headers.getD []) := rfl
  refine ⟨fun t => makeRequest_sent cfg t endpoint o, hb, ?_, ?_, ?_⟩
  · intro hn
    rw [hb, hn]
    rfl
  · intro hnone
    rw [hb]
    exact lookup_mergeHeaders_of_not_mem _ _ _ hnone
  · intro hnd v hv
    rw [hb]
    exact lookup_mergeHeaders_of_mem _ _ _ _ hnd hv

/-- Witness for C3: with client headers `Accept, X-Api` and per-call
headers `X-Trace, Accept`, the delegated request carries the per-call
`Accept` and the client-level `X-Api`. -/
theorem makeRequest_merges_headers_witness :
    List.lookup "Accept"
      (makeRequestBuilt cfgHdrEx "/api/chirps" headersOptsEx).headers =
        some "text/plain" ∧
    List.lookup "X-Api"
      (makeRequestBuilt cfgHdrEx "/api/chirps" headersOptsEx).headers =
        some "7" :=
  ⟨(makeRequest_merges_headers cfgHdrEx "/api/chirps" headersOptsEx
      "Accept").2.2.2.2 (by decide) _ (by decide),
   ((makeRequest_merges_headers cfgHdrEx "/api/chirps" headersOptsEx
      "X-Api").2.2.2.1 (by decide)).trans (by decide)⟩

/-- C6 counterexample: the error raised when no response is obtained
carries the message "No response received", not "no response received"
as the claim states. -/
theorem fetch_error_message_counterexample :
    (fetchWithConfig transportNone urlEx optsEx).result =
      .error "No response received" ∧
    (fetchWithConfig transportNone urlEx optsEx).result ≠
      .error "no response received" := by
  refine ⟨rfl, fun h => ?_⟩
  rw [show (fetchWithConfig transportNone urlEx optsEx).result =
      Except.error "No response received" from rfl] at h
  exact absurd (Except.error.inj h) (by decide)

/-- C6 amended: the transport adapter issues exactly one request (no
retry); when no response is obtained it raises an error with message
"No response received"; when any response is obtained — whatever its
status, 4xx and 5xx included — it returns the uniform
`{status, statusText, data, headers}` record and does not raise. -/
theorem fetch_uniform_response_no_retry (t : Transport) (url : Url)
    (o : FetchOptions) :
    (fetchWithConfig t url o).sent = [buildRequest url o] ∧
    (t (buildRequest url o) = none →
      (fetchWithConfig t url o).result = .error "No response received") ∧
    (∀ raw, t (buildRequest url o) = some raw →
      (fetchWithConfig t url o).result =
        .ok ⟨raw.status, raw.statusText, raw.data, raw.headers⟩) := by
  refine ⟨?_, ?_, ?_⟩
  · simp only [fetchWithConfig]
    cases t (buildRequest url o) <;> rfl
  · intro h
    simp only [fetchWithConfig, h]
  · intro raw h
    simp only [fetchWithConfig, h]

/-- Witness for C6 amended: a 401 response yields the uniform record
(no raise), and an absent response yields the "No response received"
error. -/
theorem fetch_uniform_response_no_retry_witness :
    (fetchWithConfig transport401 urlEx optsEx).result =
      .ok ⟨401, "Unauthorized", invalidCredentialsBody, []⟩ ∧
    (fetchWithConfig transportNone urlEx optsEx).result =
      .error "No response received" :=
  ⟨(fetch_uniform_response_no_retry transport401 urlEx optsEx).2.2 _ rfl,
   (fetch_uniform_response_no_retry transportNone urlEx optsEx).2.1 rfl⟩

/-- C7: the transport adapter appends to the URL's query string exactly
the defined entries of `params` (undefined entries skipped, defined
falsy values such as `false` and `0` appended after string conversion),
and the request body is the JSON serialization of `data` exactly when
`data` is present. -/
theorem fetch_params_and_body_serialization (url : Url) (o : FetchOptions) :
    ((buildRequest url o).url.query = url.query ++
      match o.params with
      | none => []
      | some ps => serializeParams ps) ∧
    (∀ ps, serializeParams ps =
      ps.filterMap fun kv => kv.2.map fun v => (kv.1, paramToString v)) ∧
    paramToString (.bool false) = "false" ∧
    paramToString (.num 0) = "0" ∧
    (o.data = none → (buildRequest url o).body = none) ∧
    (∀ d, o.data = some d →
      (buildRequest url o).body = some (jsonStringify d)) := by
  refine ⟨?_, ?_, rfl, rfl, ?_, ?_⟩
  · cases hp : o.params <;> simp [buildRequest, appendParams, hp]
  · intro ps
    induction ps with
    | nil => rfl
    | cons kv rest ih =>
        obtain ⟨k1, v1⟩ := kv
        cases v1 with
        | none => simp [serializeParams, ih]
        | some v => simp [serializeParams, ih]
  · intro h
    simp [buildRequest, h]
  · intro d h
    simp [buildRequest, h]

/-- Witness for C7: concrete options with an undefined entry, a `false`
entry, a `0` entry and a JSON body. -/
theorem fetch_params_and_body_serialization_witness :
    (buildRequest urlEx paramsOptsEx).body =
      some (jsonStringify (.obj [("body", .str "hi")])) ∧
    serializeParams [("q", some (.str "x")), ("skip", none),
        ("flag", some (.bool false)), ("page", some (.num 0))] =
      [("q", "x"), ("flag", "false"), ("page", "0")] :=
  ⟨(fetch_params_and_body_serialization urlEx paramsOptsEx).2.2.2.2.2
      _ rfl,
   ((fetch_params_and_body_serialization urlEx paramsOptsEx).2.1
      _).trans (by decide)⟩

theorem parse_ok_string_field (s : ObjectSchema) (j : JValue)
    (out : List (String × JValue)) (name : String)
    (hmem : (name, FieldKind.str) ∈ s.shape)
    (hok : s.parse j = .ok out) :
    ∃ tok, List.lookup name out = some (.str tok) := by
  cases j with
  | obj fields =>
      by_cases hemp : (collectIssues s.shape fields).isEmpty
      · have hnil : collectIssues s.shape fields = [] :=
          List.isEmpty_iff.mp hemp
        have hout : out = collectParsed s.shape fields := by
          simp only [ObjectSchema.parse, hemp, if_pos, Except.ok.injEq] at hok
          exact hok.symm
        have hviol := (collectIssues_eq_nil_iff s.shape fields).mp hnil
          name .str hmem
        obtain ⟨v, hv⟩ := lookup_collectParsed_of_mem s.shape fields
          name .str hmem hviol
        have hfv := lookup_collectParsed_sub s.shape fields name v hv
        obtain ⟨w, hw, hkm⟩ := (fieldViolation_false_iff fields name
          FieldKind.str).mp hviol
        have hvw : v = w := by
          have := hfv.symm.trans hw
          injection this
        subst hvw
        cases v with
        | str sv => exact ⟨sv, hout ▸ hv⟩
        | num n => simp [kindMatches] at hkm
        | bool b => simp [kindMatches] at hkm
        | null => simp [kindMatches] at hkm
        | arr xs => simp [kindMatches] at hkm
        | obj fs => simp [kindMatches] at hkm
      · simp [ObjectSchema.parse, hemp] at hok
  | str sv => simp [ObjectSchema.parse] at hok
  | num n => simp [ObjectSchema.parse] at hok
  | bool b => simp [ObjectSchema.parse] at hok
  | null => simp [ObjectSchema.parse] at hok
  | arr xs => simp [ObjectSchema.parse] at hok

/-- C1: each validated operation (`login`, `createChirp`, `getChirp`)
asserts its expected status (200, 201, 200 respectively) before schema
validation: when the obtained response's status differs, the operation
fails with exactly the status-mismatch failure — whatever the body — and
a schema-validation failure can only arise when the status matched. -/
theorem validated_ops_assert_status_before_validation
    (cfg : FetchConfig) (t : Transport) (creds : ChirpyLogin)
    (chirp : ChirpDataCreate) (chirpId : String) (raw : ApiResponse) :
    (t (ChirpyApiClient.loginRequest cfg creds) = some raw →
      (raw.status ≠ 200 →
        ChirpyApiClient.login cfg t creds =
          .error (.statusMismatch 200 raw.status)) ∧
      (∀ issues, ChirpyApiClient.login cfg t creds =
          .error (.schemaFailure issues) → raw.status = 200)) ∧
    (t (ChirpyApiClient.createChirpRequest cfg chirp) = some raw →
      (raw.status ≠ 201 →
        ChirpyApiClient.createChirp cfg t chirp =
          .error (.statusMismatch 201 raw.status)) ∧
      (∀ issues, ChirpyApiClient.createChirp cfg t chirp =
          .error (.schemaFailure issues) → raw.status = 201)) ∧
    (t (ChirpyApiClient.getChirpRequest cfg chirpId) = some raw →
      (raw.status ≠ 200 →
        ChirpyApiClient.getChirp cfg t chirpId =
          .error (.statusMismatch 200 raw.status)) ∧
      (∀ issues, ChirpyApiClient.getChirp cfg t chirpId =
          .error (.schemaFailure issues) → raw.status = 200)) := by
  refine ⟨?_, ?_, ?_⟩
  · intro hraw
    have hres := makeRequest_result_some cfg t ChirpyApiClient.loginPath
      (ChirpyApiClient.loginOptions creds) raw hraw
    constructor
    · intro hne
      simp only [ChirpyApiClient.login, hres]
      rw [if_neg hne]
    · intro issues hlog
      simp only [ChirpyApiClient.login, hres] at hlog
      by_cases hs : raw.status = 200
      · exact hs
      · rw [if_neg hs] at hlog
        exact absurd (Except.error.inj hlog) (by simp)
  · intro hraw
    have hres := makeRequest_result_some cfg t ChirpyApiClient.chirpsPath
      (ChirpyApiClient.createChirpOptions chirp) raw hraw
    constructor
    · intro hne
      simp only [ChirpyApiClient.createChirp, hres]
      rw [if_neg hne]
    · intro issues hcc
      simp only [ChirpyApiClient.createChirp, hres] at hcc
      by_cases hs : raw.status = 201
      · exact hs
      · rw [if_neg hs] at hcc
        exact absurd (Except.error.inj hcc) (by simp)
  · intro hraw
    have hres := makeRequest_result_some cfg t
      (ChirpyApiClient.chirpsPath ++ "/" ++ chirpId)
      ChirpyApiClient.getChirpOptions raw hraw
    constructor
    · intro hne
      simp only [ChirpyApiClient.getChirp, hres]
      rw [if_neg hne]
    · intro issues hgc
      simp only [ChirpyApiClient.getChirp, hres] at hgc
      by_cases hs : raw.status = 200
      · exact hs
      · rw [if_neg hs] at hgc
        exact absurd (Except.error.inj hgc) (by simp)

/-- Witness for C1: against a transport that always answers 401, all
three validated operations fail with the status-mismatch failure. -/
theorem validated_ops_assert_status_witness :
    ChirpyApiClient.login cfgEx transport401 credsEx =
      .error (.statusMismatch 200 401) ∧
    ChirpyApiClient.createChirp cfgEx transport401 chirpEx =
      .error (.statusMismatch 201 401) ∧
    ChirpyApiClient.getChirp cfgEx transport401 "c1" =
      .error (.statusMismatch 200 401) :=
  ⟨((validated_ops_assert_status_before_validation cfgEx transport401
      credsEx chirpEx "c1" apiResponse401).1 rfl).1 (by decide),
   ((validated_ops_assert_status_before_validation cfgEx transport401
      credsEx chirpEx "c1" apiResponse401).2.1 rfl).1 (by decide),
   ((validated_ops_assert_status_before_validation cfgEx transport401
      credsEx chirpEx "c1" apiResponse401).2.2 rfl).1 (by decide)⟩

/-- C2: when `authenticate` completes successfully, the client's header
map holds `Authorization: Bearer <token>` with the token taken from the
validated login response, and every subsequent request built through
`makeRequest` on that client whose per-call options carry no
`Authorization` entry is sent with exactly that header value. -/
theorem authenticate_sets_bearer_for_subsequent_requests
    (cfg : FetchConfig) (t : Transport) (creds : ChirpyLogin)
    (cfg' : FetchConfig)
    (hsucc : ChirpyApiClient.authenticate cfg t creds = (cfg', none)) :
    ∃ raw parsed tok,
      t (ChirpyApiClient.loginRequest cfg creds) = some raw ∧
      ChirpyLoginResponseSchema.parse raw.data = .ok parsed ∧
      List.lookup "token" parsed = some (.str tok) ∧
      List.lookup "Authorization" cfg'.headers = some ("Bearer " ++ tok) ∧
      ∀ endpoint o,
        List.lookup "Authorization" (o.headers.getD []) = none →
        List.lookup "Authorization"
          (makeRequestBuilt cfg' endpoint o).headers =
            some ("Bearer " ++ tok) := by
  cases hlog : ChirpyApiClient.login cfg t creds with
  | error e => simp [ChirpyApiClient.authenticate, hlog] at hsucc
  | ok data =>
      simp only [ChirpyApiClient.authenticate, hlog, Prod.mk.injEq] at hsucc
      have hcfg : cfg' =
          { cfg with
            headers :=
              setHeader cfg.headers "Authorization"
                ("Bearer " ++ getStr data "token") } :=
        hsucc.1.symm
      cases hraw : t (ChirpyApiClient.loginRequest cfg creds) with
      | none =>
          have hres := makeRequest_result_none cfg t
            ChirpyApiClient.loginPath
            (ChirpyApiClient.loginOptions creds) hraw
          simp [ChirpyApiClient.login, hres] at hlog
      | some raw =>
          have hres := makeRequest_result_some cfg t
            ChirpyApiClient.loginPath
            (ChirpyApiClient.loginOptions creds) raw hraw
          simp only [ChirpyApiClient.login, hres] at hlog
          by_cases hs : raw.status = 200
          · rw [if_pos hs] at hlog
            cases hp : ChirpyLoginResponseSchema.parse raw.data with
            | error issues => rw [hp] at hlog; cases hlog
            | ok parsed =>
                rw [hp] at hlog
                have hdp : parsed = data := Except.ok.inj hlog
                subst hdp
                obtain ⟨tok, htok⟩ := parse_ok_string_field
                  ChirpyLoginResponseSchema raw.data parsed "token"
                  (by decide) hp
                have hgs : getStr parsed "token" = tok := by
                  simp [getStr, htok]
                refine ⟨raw, parsed, tok, rfl, hp, htok, ?_, ?_⟩
                · rw [hcfg]
                  simp only [hgs]
                  exact lookup_setHeader_self cfg.headers "Authorization" _
                · intro endpoint o hno
                  have hb : (makeRequestBuilt cfg' endpoint o).headers =
                      mergeHeaders cfg'.headers (o.headers.getD []) := rfl
                  rw [hb, lookup_mergeHeaders_of_not_mem _ _ _ hno, hcfg]
                  simp only [hgs]
                  exact lookup_setHeader_self cfg.headers "Authorization" _
          · rw [if_neg hs] at hlog
            cases hlog

/-- Witness for C2: a successful `authenticate` through a transport
returning a valid login response with token `tok123`. -/
theorem authenticate_sets_bearer_witness :
    ∃ raw parsed tok,
      transportLoginOk (ChirpyApiClient.loginRequest cfgEx credsEx) =
        some raw ∧
      ChirpyLoginResponseSchema.parse raw.data = .ok parsed ∧
      List.lookup "token" parsed = some (.str tok) ∧
      List.lookup "Authorization" cfgAuthEx.headers =
        some ("Bearer " ++ tok) ∧
      ∀ endpoint o,
        List.lookup "Authorization" (o.headers.getD []) = none →
        List.lookup "Authorization"
          (makeRequestBuilt cfgAuthEx endpoint o).headers =
            some ("Bearer " ++ tok) :=
  authenticate_sets_bearer_for_subsequent_requests cfgEx transportLoginOk
    credsEx cfgAuthEx (by decide)

/-- C9: `authenticate` is atomic: when `login` fails for any reason the
failure is propagated and the configuration — the whole header map and
the base URL — is returned unchanged; on success exactly the
`Authorization` entry is written and every other header entry and the
base URL are unchanged. -/
theorem authenticate_is_atomic (cfg : FetchConfig) (t : Transport)
    (creds : ChirpyLogin) :
    (∀ e, ChirpyApiClient.login cfg t creds = .error e →
      ChirpyApiClient.authenticate cfg t creds = (cfg, some e)) ∧
    (∀ data, ChirpyApiClient.login cfg t creds = .ok data →
      (ChirpyApiClient.authenticate cfg t creds).2 = none ∧
      (ChirpyApiClient.authenticate cfg t creds).1.baseURL = cfg.baseURL ∧
      List.lookup "Authorization"
        (ChirpyApiClient.authenticate cfg t creds).1.headers =
          some ("Bearer " ++ getStr data "token") ∧
      ∀ k, k ≠ "Authorization" →
        List.lookup k (ChirpyApiClient.authenticate cfg t creds).1.headers =
          List.lookup k cfg.headers) := by
  constructor
  · intro e he
    simp [ChirpyApiClient.authenticate, he]
  · intro data hd
    simp only [ChirpyApiClient.authenticate, hd]
    refine ⟨trivial, trivial,
      lookup_setHeader_self cfg.headers "Authorization" _, ?_⟩
    intro k hk
    exact lookup_setHeader_other cfg.headers "Authorization" _ k hk

/-- Witness for C9: against a transport with no response, `authenticate`
propagates the transport failure and leaves the configuration — headers
and base URL — exactly unchanged. -/
theorem authenticate_is_atomic_witness :
    ChirpyApiClient.authenticate cfgEx transportNone credsEx =
      (cfgEx, some (.transportFailure "No response received")) :=
  (authenticate_is_atomic cfgEx transportNone credsEx).1 _ rfl

/-- C8 counterexample: on a concrete successful run, the fixture's trace
contains no release of the transport handle, so the handle is not
released by the fixture on that exit path. -/
theorem fixture_release_counterexample :
    FixtureEvent.releaseTransport ∉
      chirpyApiFixtureTrace "https://chirpy.example" transportLoginOk
        credsEx := by
  decide

/-- C8 amended: the fixture acquires the transport handle, constructs
the client and runs `authenticate` before the test body on every run
(the body runs only when authentication succeeded), and it performs no
release of the transport handle itself on any exit path — disposal is
left to the test-runner environment. -/
theorem fixture_setup_order_no_release (baseUrl : String) (t : Transport)
    (creds : ChirpyLogin) :
    (∃ rest, chirpyApiFixtureTrace baseUrl t creds =
        .acquireTransport :: .constructClient :: .authenticateClient ::
          rest ∧
      (rest = [] ∨ rest = [.runTestBody])) ∧
    FixtureEvent.releaseTransport ∉ chirpyApiFixtureTrace baseUrl t creds
    := by
  unfold chirpyApiFixtureTrace
  cases (ChirpyApiClient.authenticate (createChirpyApiClient baseUrl none)
      t creds).2 with
  | none => exact ⟨⟨[.runTestBody], by simp, Or.inr rfl⟩, by simp⟩
  | some e => exact ⟨⟨[], by simp, Or.inl rfl⟩, by simp⟩
